import Mathlib

set_option maxRecDepth 10000

/-!
Shallow embedding of the On-Boarding-Mentor repository, file
`src/pages/rag_agents.py`.  Strings are modelled as Lean `String`s; the
Python string helpers `str.lower` and `str.strip` are modelled char-wise
(the texts involved are ASCII, where the semantics agree), and the
substring operator `pat in s` is modelled by a direct scan.  Stateful or
I/O parts (Streamlit rendering, `os.listdir`/`open`, the autogen call)
are modelled as pure functions over explicit inputs; fallible code
returns `Except` (the error value names the Python exception raised).
-/

/-- Models Python `str.lower` (`rag_agents.py` line 141 and others): character-wise
lowercasing.  All keywords, markers and phrases in this program are ASCII,
where Python `str.lower` and `Char.toLower` coincide. -/
def py_lower (s : String) : String :=
  String.mk (s.data.map Char.toLower)

/-- Models Python `str.strip` (`rag_agents.py` line 116, 218): drop leading and
trailing whitespace. -/
def py_strip (s : String) : String :=
  String.mk ((((s.data.dropWhile Char.isWhitespace).reverse).dropWhile
    Char.isWhitespace).reverse)

/-- Models the Python substring operator `pat in s`: scan every suffix for
`pat` as a prefix. -/
def hasSub (pat : List Char) : List Char → Bool
  | [] => pat.isEmpty
  | c :: rest => pat.isPrefixOf (c :: rest) || hasSub pat rest

/-- `Config.ORG_KEYWORDS`, `rag_agents.py` lines 16-18. -/
def ORG_KEYWORDS : List String :=
  ["org", "organization", "structure", "team", "manager", "lead", "report",
   "department", "chart"]

/-- `Config.TERMINATION_PHRASES`, `rag_agents.py` lines 19-27.  Note that three
phrases contain an upper-case letter. -/
def TERMINATION_PHRASES : List String :=
  ["I'm unable to provide", "I am sorry", "need more information",
   "please provide a question", "please clarify", "no relevant answer",
   "I apologize"]

/-- A chat message `{role, content}` as used throughout `rag_agents.py`. -/
structure ChatMessage where
  role : String
  content : String
deriving DecidableEq

/-- The two agent roles checked by `should_stop`, `rag_agents.py` line 114. -/
def agent_roles : List String := ["TextRAG_Agent", "GraphRAG_Agent"]

/-- Python slice `l[-n:]`: the last (up to) `n` elements. -/
def lastN {α : Type} (n : Nat) (l : List α) : List α :=
  l.drop (l.length - n)

/-- `ChatManager.should_stop`, `rag_agents.py` lines 113-122: take the last 3
messages, keep those whose role is an agent role, strip and lower each, and
require every one of them to contain some termination phrase.  The phrase
itself is NOT lowered by the code (`generic in resp`). -/
def should_stop (h : List ChatMessage) : Bool :=
  ((lastN 3 h).filterMap (fun m =>
      if agent_roles.contains m.role then
        some (py_lower (py_strip m.content))
      else none)).all
    (fun resp => TERMINATION_PHRASES.any (fun g => hasSub g.data resp.data))

/-- Variant of `should_stop` following the words of claim C2 ("matching
insensitive to the case of both sides"): the phrase is also case-folded
before the substring test.  Defined only to compare with `should_stop`. -/
def should_stop_bothfolded (h : List ChatMessage) : Bool :=
  ((lastN 3 h).filterMap (fun m =>
      if agent_roles.contains m.role then
        some (py_lower (py_strip m.content))
      else none)).all
    (fun resp =>
      TERMINATION_PHRASES.any (fun g => hasSub (py_lower g).data resp.data))

/-- The prompt classifier of `ChatManager.generate_response`, `rag_agents.py`
lines 141-143: lower the prompt and test each org keyword for membership. -/
def is_org_related (p : String) : Bool :=
  ORG_KEYWORDS.any (fun k => hasSub k.data (py_lower p).data)

/-- The leak markers of the history sanitizer, `rag_agents.py` lines 208-211. -/
def LEAK_MARKERS : List String :=
  ["```mermaid", "# personal", "based on the following", "use the following"]

/-- The history sanitizer at the end of `ChatManager.generate_response`,
`rag_agents.py` lines 204-213: keep a message unless its lowered content
contains a leak marker. -/
def filtered_history (h : List ChatMessage) : List ChatMessage :=
  h.filter (fun m =>
    !(LEAK_MARKERS.any (fun k => hasSub k.data (py_lower m.content).data)))

/-- `ChatManager._get_avatar`, `rag_agents.py` lines 124-132.  The final branch
reads `Config.USER_IMAGE`, but class `Config` (lines 12-27) defines no
`USER_IMAGE` attribute, so reaching that branch raises `AttributeError`;
the error value records this. -/
def get_avatar (role : String) : Except String String :=
  if role = "user_proxy" then Except.ok "🧠"
  else if role = "user" then Except.ok "👩‍💼"
  else if agent_roles.contains role then Except.ok "👩‍💼"
  else Except.error "AttributeError: type object Config has no attribute USER_IMAGE"

/-- The synthetic message appended in the org branch, `rag_agents.py`
lines 170-175 (`self.graph_agent.name` is `"GraphRAG_Agent"`; the two adjacent
Python string literals concatenate without a space after "as "). -/
def graph_sentinel : ChatMessage :=
  ⟨"GraphRAG_Agent", "Ending the chat as no relevant answer can be provided."⟩

/-- The synthetic message appended in the personal branch, `rag_agents.py`
lines 197-202 (the two adjacent Python string literals concatenate with no
space between "helpful" and "answer"). -/
def text_sentinel : ChatMessage :=
  ⟨"TextRAG_Agent", "Ending the chat as no helpfulanswer can be provided."⟩

/-- The stall guard of `ChatManager.generate_response` (lines 170-175 and
197-202): append the branch sentinel exactly when `should_stop` holds. -/
def append_stall (sentinel : ChatMessage) (h : List ChatMessage) :
    List ChatMessage :=
  if should_stop h then h ++ [sentinel] else h

/-- One rendered chat entry of `ChatManager.show_chat_history`: role, the
avatar chosen at line 222, and the stripped content that is written. -/
structure RenderedMsg where
  role : String
  avatar : String
  text : String
deriving DecidableEq

/-- `ChatManager.show_chat_history`, `rag_agents.py` lines 215-249: walk the
history in order; skip entries whose stripped content is empty (lines
218-220); otherwise select the avatar (line 222) - which raises for
unrecognized roles, aborting the walk (second component `true`) - and render
the stripped content. -/
def show_chat_render : List ChatMessage → List RenderedMsg × Bool
  | [] => ([], false)
  | m :: rest =>
    if py_strip m.content = "" then show_chat_render rest
    else
      match get_avatar m.role with
      | Except.error _ => ([], true)
      | Except.ok av =>
        ((⟨m.role, av, py_strip m.content⟩ : RenderedMsg) ::
          (show_chat_render rest).1, (show_chat_render rest).2)

/-- The opening marker of the regex `r"```mermaid\n(.*?)```"`,
`rag_agents.py` line 53, as a character list. -/
def openerL : List Char := ['`', '`', '`', 'm', 'e', 'r', 'm', 'a', 'i', 'd', '\n']

/-- The closing marker of the same regex. -/
def closerL : List Char := ['`', '`', '`']

/-- Non-greedy search for the closing marker: split `s` at the earliest
occurrence of `closerL`, returning the text before it and the text after it
(the `(.*? )` capture is the first component).  `none` when no closing marker
occurs anywhere in `s` (an unterminated fence). -/
def splitAtCloser : List Char → Option (List Char × List Char)
  | [] => none
  | c :: rest =>
    if closerL.isPrefixOf (c :: rest) then some ([], rest.drop 2)
    else
      match splitAtCloser rest with
      | some (body, r) => some (c :: body, r)
      | none => none

/-- The scanning loop of `re.findall(r"```mermaid\n(.*?)```", text, re.DOTALL)`
(`rag_agents.py` lines 53-54), written with an explicit fuel equal to the
input length so that it is structural.  At each position: if the opening
marker starts here, capture up to the earliest closing marker and resume
after it; otherwise advance one character.  When an opening marker has no
closing marker anywhere after it, no later match can exist either (any later
opening marker would itself contain the three-backtick closer), so the scan
ends, exactly as `re.findall` does. -/
def extractGo : Nat → List Char → List (List Char)
  | _, [] => []
  | 0, _ :: _ => []
  | n + 1, c :: rest =>
    if openerL.isPrefixOf (c :: rest) then
      match splitAtCloser (rest.drop 10) with
      | some (body, r) => body :: extractGo n r
      | none => []
    else extractGo n rest

/-- `MermaidExtractor.extract_mermaid_blocks` on character lists. -/
def extractAux (s : List Char) : List (List Char) :=
  extractGo s.length s

/-- `MermaidExtractor.extract_mermaid_blocks`, `rag_agents.py` lines 49-54. -/
def extract_mermaid_blocks (s : String) : List String :=
  (extractAux s.data).map String.mk

/-- Python `sep.join(l)`. -/
def join_sep (sep : String) : List String → String
  | [] => ""
  | [x] => x
  | x :: xs => x ++ sep ++ join_sep sep xs

/-- `rag_agents.py` lines 150-151: re-wrap each extracted block in a mermaid
fence and join with blank lines. -/
def mermaid_diagrams (blocks : List String) : String :=
  join_sep "\n\n" (blocks.map (fun b => "```mermaid\n" ++ b ++ "\n```"))

/-- The org-branch preamble, `rag_agents.py` lines 152-158: the adjacent Python
string literals concatenate without separating spaces. -/
def ORG_PREAMBLE : String :=
  "Based on the following organization charts,answer the user's question.Only use this information to determine reporting lines,structure, or team relationships.Do not include any Mermaid diagrams orraw reference material in your response:\n\n"

/-- The org-branch prompt assembled by `ChatManager.generate_response`,
`rag_agents.py` lines 144-160, as a function of the extracted blocks and the
user prompt. -/
def org_final_prompt (blocks : List String) (prompt : String) : String :=
  ORG_PREAMBLE ++ mermaid_diagrams blocks ++ "\n\nUser's question: " ++ prompt

/-- One entry of a directory listing as seen by `os.listdir`: a regular file
with its (UTF-8 decoded) content, or a subdirectory. -/
inductive DirEntry
  | file (content : String)
  | subdir
deriving DecidableEq

/-- Python `fname.endswith(".md")`, `rag_agents.py` line 42. -/
def endsWithMd (name : String) : Bool :=
  List.isSuffixOf ".md".data name.data

/-- The loop body of `DocumentLoader.load_documents` for one category
directory, `rag_agents.py` lines 41-45: for each listed entry whose name ends
in `.md`, open and read it.  `open` on a subdirectory raises
`IsADirectoryError`; the error aborts the whole load. -/
def load_entries : List (String × DirEntry) → Except String (List (String × String))
  | [] => Except.ok []
  | (name, ent) :: rest =>
    if endsWithMd name then
      match ent with
      | DirEntry.file c =>
        match load_entries rest with
        | Except.ok r => Except.ok ((name, c) :: r)
        | Except.error e => Except.error e
      | DirEntry.subdir => Except.error "IsADirectoryError"
    else load_entries rest

/-- `DocumentLoader.load_documents` for one category, `rag_agents.py` lines
39-45: a non-existent directory (`none`) contributes an empty mapping; an
existing one is processed entry by entry.  Listing is flat: subdirectory
contents are never visited. -/
def load_category : Option (List (String × DirEntry)) →
    Except String (List (String × String))
  | none => Except.ok []
  | some entries => load_entries entries

/-- The mapping described by claim C9's words: exactly the regular files whose
names end in `.md`, never an error.  Defined only to compare with
`load_category`. -/
def load_category_claim : Option (List (String × DirEntry)) →
    List (String × String)
  | none => []
  | some entries =>
    entries.filterMap (fun p =>
      match p.2 with
      | DirEntry.file c => if endsWithMd p.1 then some (p.1, c) else none
      | DirEntry.subdir => none)

/-- The extractor described by claim C5's words ("trimmed bodies"): the code's
extraction followed by trimming each captured block.  Defined only to compare
with `extract_mermaid_blocks`. -/
def extract_blocks_trimmed (s : String) : List String :=
  (extract_mermaid_blocks s).map py_strip

theorem hasSub_iff (pat : List Char) : ∀ s : List Char, hasSub pat s = true ↔ pat <:+: s := by
  intro s
  induction s with
  | nil =>
    simp [hasSub, List.isEmpty_iff, List.infix_nil]
  | cons c rest ih =>
    simp [hasSub, ih, List.isPrefixOf_iff_prefix, List.infix_cons_iff]

theorem splitAtCloser_length : ∀ (s b r : List Char),
    splitAtCloser s = some (b, r) → r.length ≤ s.length := by
  intro s
  induction s with
  | nil => intro b r h; exact absurd h (by simp [splitAtCloser])
  | cons c rest ih =>
    intro b r h
    rw [splitAtCloser] at h
    split at h
    · have hr : r = rest.drop 2 := by
        cases h; rfl
      subst hr
      simp only [List.length_drop, List.length_cons]
      omega
    · cases hsp : splitAtCloser rest with
      | none => rw [hsp] at h; exact absurd h (by simp)
      | some pr =>
        obtain ⟨body, r2⟩ := pr
        rw [hsp] at h
        simp only [Option.some.injEq, Prod.mk.injEq] at h
        obtain ⟨-, hr2⟩ := h
        subst hr2
        have := ih body r2 hsp
        simp only [List.length_cons]
        omega

theorem extractGo_fuel : ∀ (n m : Nat) (s : List Char), s.length ≤ n → s.length ≤ m →
    extractGo n s = extractGo m s := by
  intro n
  induction n with
  | zero =>
    intro m s hn _
    have hs : s = [] := List.eq_nil_of_length_eq_zero (Nat.le_zero.mp hn)
    subst hs
    cases m <;> rfl
  | succ n ih =>
    intro m s hn hm
    cases s with
    | nil => cases m <;> rfl
    | cons c rest =>
      cases m with
      | zero => exact absurd hm (by simp)
      | succ m =>
        simp only [extractGo]
        by_cases hop : openerL.isPrefixOf (c :: rest) = true
        · rw [if_pos hop, if_pos hop]
          cases hsp : splitAtCloser (rest.drop 10) with
          | none => rfl
          | some pr =>
            obtain ⟨body, r⟩ := pr
            have hr : r.length ≤ rest.length := by
              have h1 := splitAtCloser_length _ _ _ hsp
              simp only [List.length_drop] at h1
              omega
            have h2 : rest.length ≤ n := by
              simp only [List.length_cons] at hn
              omega
            have h3 : rest.length ≤ m := by
              simp only [List.length_cons] at hm
              omega
            exact congrArg (body :: ·) (ih m r (le_trans hr h2) (le_trans hr h3))
        · rw [if_neg hop, if_neg hop]
          have h2 : rest.length ≤ n := by
            simp only [List.length_cons] at hn
            omega
          have h3 : rest.length ≤ m := by
            simp only [List.length_cons] at hm
            omega
          exact ih m rest h2 h3

theorem extractAux_cons (c : Char) (rest : List Char) :
    extractAux (c :: rest) =
      if openerL.isPrefixOf (c :: rest) then
        match splitAtCloser (rest.drop 10) with
        | some (body, r) => body :: extractAux r
        | none => []
      else extractAux rest := by
  show extractGo (c :: rest).length (c :: rest) = _
  simp only [List.length_cons, extractGo]
  by_cases hop : openerL.isPrefixOf (c :: rest) = true
  · rw [if_pos hop, if_pos hop]
    cases hsp : splitAtCloser (rest.drop 10) with
    | none => rfl
    | some pr =>
      obtain ⟨body, r⟩ := pr
      have hr : r.length ≤ rest.length := by
        have h1 := splitAtCloser_length _ _ _ hsp
        simp only [List.length_drop] at h1
        omega
      exact congrArg (body :: ·) (extractGo_fuel rest.length r.length r hr le_rfl)
  · rw [if_neg hop, if_neg hop]
    rfl

theorem extractAux_append_no_tick : ∀ (pre rest : List Char),
    (∀ ch ∈ pre, ch ≠ '`') → extractAux (pre ++ rest) = extractAux rest := by
  intro pre
  induction pre with
  | nil => intro rest _; rfl
  | cons c pre ih =>
    intro rest h
    have hc : c ≠ '`' := h c (List.mem_cons_self c pre)
    have hbeq : ('`' == c) = false := beq_eq_false_iff_ne.mpr (Ne.symm hc)
    rw [List.cons_append, extractAux_cons]
    have hop : openerL.isPrefixOf (c :: (pre ++ rest)) = false := by
      simp only [openerL, List.isPrefixOf, hbeq, Bool.false_and]
    rw [hop]
    simp only [Bool.false_eq_true, if_false]
    exact ih rest (fun ch hm => h ch (List.mem_cons_of_mem c hm))

theorem extractAux_opener_step (x : List Char) :
    extractAux (openerL ++ x) =
      match splitAtCloser x with
      | some (b, r) => b :: extractAux r
      | none => [] := by
  have hop : openerL.isPrefixOf (openerL ++ x) = true :=
    List.isPrefixOf_iff_prefix.mpr (List.prefix_append openerL x)
  have he : openerL ++ x
      = '`' :: ('`' :: '`' :: 'm' :: 'e' :: 'r' :: 'm' :: 'a' :: 'i' :: 'd' :: '\n' :: x) := rfl
  rw [he] at hop
  rw [he, extractAux_cons, if_pos hop]
  rfl

theorem extractAux_nil_of_no_opener : ∀ s : List Char,
    ¬ (openerL <:+: s) → extractAux s = [] := by
  intro s
  induction s with
  | nil => intro _; rfl
  | cons c rest ih =>
    intro h
    rw [extractAux_cons]
    have hop : openerL.isPrefixOf (c :: rest) = false := by
      cases hb : openerL.isPrefixOf (c :: rest)
      · rfl
      · exact absurd (List.IsPrefix.isInfix (List.isPrefixOf_iff_prefix.mp hb)) h
    rw [hop]
    simp only [Bool.false_eq_true, if_false]
    exact ih (fun hin => h (List.infix_cons hin))

/-- Claim C1: the classifier in `ChatManager.generate_response` marks a prompt
organization-related exactly when some keyword of `Config.ORG_KEYWORDS` is a
substring of the lower-cased prompt, and personal-related otherwise; the
empty prompt is personal-related. -/
theorem is_org_related_spec :
    (∀ p : String, is_org_related p = true ↔
      ∃ k ∈ ORG_KEYWORDS, k.data <:+: (py_lower p).data)
    ∧ is_org_related "" = false := by
  refine ⟨?_, by decide⟩
  intro p
  simp [is_org_related, List.any_eq_true, hasSub_iff]

/-- Claim C2 (counterexample): the claim says phrase matching is insensitive
to the case of both sides, but `should_stop` lowers only the message, not the
phrase.  On the single agent message "I am sorry" the claim's reading
(`should_stop_bothfolded`) stops, while the code does not: the phrase
"I am sorry" retains its capital letter and never occurs in the lowered
message. -/
theorem should_stop_casefold_cex :
    should_stop [⟨"TextRAG_Agent", "I am sorry"⟩] = false
    ∧ should_stop_bothfolded [⟨"TextRAG_Agent", "I am sorry"⟩] = true :=
  ⟨by decide, by decide⟩

/-- Claim C2 (amended): `should_stop` returns true exactly when every message
among the last 3 whose role is an agent role contains, after stripping and
lowering the message (only the message is case-folded), some termination
phrase verbatim; and on a history of 3 agent messages all equal to
"I am sorry, please clarify" it returns true (via the all-lower-case phrase
"please clarify") and `generate_response` appends exactly one synthetic
sentinel message attributed to the active agent. -/
theorem should_stop_verbatim_spec :
    (∀ h : List ChatMessage, should_stop h = true ↔
      ∀ m ∈ lastN 3 h, agent_roles.contains m.role = true →
        ∃ g ∈ TERMINATION_PHRASES,
          g.data <:+: (py_lower (py_strip m.content)).data)
    ∧ should_stop
        [⟨"GraphRAG_Agent", "I am sorry, please clarify"⟩,
         ⟨"GraphRAG_Agent", "I am sorry, please clarify"⟩,
         ⟨"GraphRAG_Agent", "I am sorry, please clarify"⟩] = true
    ∧ append_stall graph_sentinel
        [⟨"GraphRAG_Agent", "I am sorry, please clarify"⟩,
         ⟨"GraphRAG_Agent", "I am sorry, please clarify"⟩,
         ⟨"GraphRAG_Agent", "I am sorry, please clarify"⟩]
      = [⟨"GraphRAG_Agent", "I am sorry, please clarify"⟩,
         ⟨"GraphRAG_Agent", "I am sorry, please clarify"⟩,
         ⟨"GraphRAG_Agent", "I am sorry, please clarify"⟩] ++ [graph_sentinel] := by
  refine ⟨?_, by decide, by decide⟩
  intro h
  simp only [should_stop, List.all_eq_true, List.mem_filterMap]
  constructor
  · intro hall m hm hrole
    have := hall (py_lower (py_strip m.content)) ⟨m, hm, by rw [if_pos hrole]⟩
    simpa [List.any_eq_true, hasSub_iff] using this
  · intro hfa resp hex
    obtain ⟨m, hm, hf⟩ := hex
    by_cases hrole : agent_roles.contains m.role = true
    · rw [if_pos hrole] at hf
      have hre := Option.some.inj hf
      subst hre
      simpa [List.any_eq_true, hasSub_iff] using hfa m hm hrole
    · rw [if_neg hrole] at hf
      exact absurd hf (by simp)

/-- Claim C3: the history sanitizer keeps the original order (it returns a
sublist), keeps a message exactly when its lowered content contains none of
the leak markers, and in particular drops a message whose content is exactly
the fenced empty diagram, whatever its role. -/
theorem filtered_history_spec :
    (∀ h : List ChatMessage,
      List.Sublist (filtered_history h) h
      ∧ ∀ m : ChatMessage, m ∈ filtered_history h ↔
          m ∈ h ∧ ¬ ∃ k ∈ LEAK_MARKERS, k.data <:+: (py_lower m.content).data)
    ∧ ∀ role : String,
      filtered_history [⟨role, "```mermaid\ngraph TD\n```"⟩] = [] := by
  refine ⟨fun h => ⟨List.filter_sublist h, fun m => ?_⟩, fun role => rfl⟩
  simp [filtered_history, List.mem_filter, List.any_eq_true, hasSub_iff]

/-- Claim C5 (counterexample): the extractor returns the raw captured body,
which keeps the newline before the closing fence; it is not the trimmed
body the claim describes. -/
theorem extract_not_trimmed_cex :
    extract_mermaid_blocks "```mermaid\ngraph TD\n```" = ["graph TD\n"]
    ∧ extract_blocks_trimmed "```mermaid\ngraph TD\n```" = ["graph TD"]
    ∧ extract_mermaid_blocks "```mermaid\ngraph TD\n```"
        ≠ extract_blocks_trimmed "```mermaid\ngraph TD\n```" :=
  ⟨by decide, by decide, by decide⟩

/-- Claim C5 (amended): on text of the form `pre ++ opener ++ body ++ closer
++ suf`, where `pre` contains no backtick and the closing marker right after
`body` is the earliest one (expressed by the `splitAtCloser` hypothesis), the
extractor captures exactly the raw body and continues after the closing
marker, in first-match order; and an unterminated fence (no closing marker
anywhere after the opener) contributes no block. -/
theorem extract_blocks_raw_spec (pre b suf : List Char)
    (hpre : ∀ ch ∈ pre, ch ≠ '`')
    (hb : splitAtCloser (b ++ closerL ++ suf) = some (b, suf)) :
    extractAux (pre ++ (openerL ++ (b ++ closerL ++ suf))) = b :: extractAux suf
    ∧ ∀ t : List Char, splitAtCloser t = none →
        extractAux (pre ++ (openerL ++ t)) = [] := by
  constructor
  · rw [extractAux_append_no_tick pre _ hpre, extractAux_opener_step, hb]
  · intro t ht
    rw [extractAux_append_no_tick pre _ hpre, extractAux_opener_step, ht]

theorem extract_blocks_raw_spec_witness :
    extractAux ("Intro: ".data ++ (openerL ++ ("graph TD\n".data ++ closerL ++ " tail".data)))
      = "graph TD\n".data :: extractAux " tail".data
    ∧ extractAux ("Intro: ".data ++ (openerL ++ "no closing fence".data)) = [] := by
  have h := extract_blocks_raw_spec "Intro: ".data "graph TD\n".data " tail".data
    (by decide) (by decide)
  exact ⟨h.1, h.2 "no closing fence".data (by decide)⟩

/-- Claim C6: re-extracting from an extracted block that contains no further
opening marker yields the empty list. -/
theorem extract_reextract (t b : String)
    (_hmem : b ∈ extract_mermaid_blocks t)
    (hno : ¬ (openerL <:+: b.data)) :
    extract_mermaid_blocks b = [] := by
  unfold extract_mermaid_blocks
  rw [extractAux_nil_of_no_opener b.data hno]
  rfl

theorem extract_reextract_witness :
    extract_mermaid_blocks "graph TD\n" = [] :=
  extract_reextract "```mermaid\ngraph TD\n```" "graph TD\n" (by decide) (by decide)

/-- Claim C8 (code bug): `_get_avatar` returns the fixed avatars for the four
recognized roles, but on any other role (such as the default role
"assistant" that `show_chat_history` assigns to messages without one) it
raises `AttributeError`, because `Config.USER_IMAGE` does not exist - it
does not return a default avatar. -/
theorem get_avatar_cases :
    get_avatar "user_proxy" = Except.ok "🧠"
    ∧ get_avatar "user" = Except.ok "👩‍💼"
    ∧ get_avatar "TextRAG_Agent" = Except.ok "👩‍💼"
    ∧ get_avatar "GraphRAG_Agent" = Except.ok "👩‍💼"
    ∧ get_avatar "assistant"
      = Except.error "AttributeError: type object Config has no attribute USER_IMAGE" :=
  ⟨rfl, rfl, rfl, rfl, rfl⟩

/-- Claim C4 (counterexample): on the org-classified prompt
"Who leads the team?" with the single block the claim describes, the
assembled org prompt does not contain the lower-case literal
"based on the following": the code's preamble starts with a capital
"Based on the following". -/
theorem org_prompt_cex :
    is_org_related "Who leads the team?" = true
    ∧ ¬ (("based on the following").data
        <:+: (org_final_prompt ["graph TD; A-->B"] "Who leads the team?").data) := by
  refine ⟨by decide, fun hin => ?_⟩
  have hh := (hasSub_iff _ _).mpr hin
  rw [show hasSub ("based on the following").data
      (org_final_prompt ["graph TD; A-->B"] "Who leads the team?").data = false
    from by decide] at hh
  simp at hh

/-- Claim C4 (amended): for every organization-classified prompt, when the
single extracted block contains the body `graph TD; A-->B`, the assembled
org-branch prompt contains the exact substring `graph TD; A-->B`, contains
the literal preamble phrase "Based on the following" (capitalized as in the
code; its case-folded form is what the post-filter matches), and ends with
the literal user question. -/
theorem org_prompt_contains (p b : String)
    (_horg : is_org_related p = true)
    (hb : ("graph TD; A-->B").data <:+: b.data) :
    ("graph TD; A-->B").data <:+: (org_final_prompt [b] p).data
    ∧ ("Based on the following").data <:+: (org_final_prompt [b] p).data
    ∧ p.data <:+ (org_final_prompt [b] p).data := by
  have hmd : mermaid_diagrams [b] = "```mermaid\n" ++ b ++ "\n```" := rfl
  refine ⟨?_, ?_, ?_⟩
  · refine List.IsInfix.trans hb
      ⟨(ORG_PREAMBLE ++ "```mermaid\n").data,
       ("\n```" ++ "\n\nUser's question: " ++ p).data, ?_⟩
    simp [org_final_prompt, hmd]
  · have h1 : ("Based on the following").data <:+: ORG_PREAMBLE.data := by
      rw [← hasSub_iff]
      decide
    refine List.IsInfix.trans h1
      ⟨[], (mermaid_diagrams [b] ++ "\n\nUser's question: " ++ p).data, ?_⟩
    simp [org_final_prompt]
  · exact ⟨(ORG_PREAMBLE ++ mermaid_diagrams [b] ++ "\n\nUser's question: ").data,
      by simp [org_final_prompt]⟩

theorem org_prompt_contains_witness :
    ("graph TD; A-->B").data
      <:+: (org_final_prompt ["graph TD; A-->B\n"] "Who leads the team?").data
    ∧ ("Based on the following").data
      <:+: (org_final_prompt ["graph TD; A-->B\n"] "Who leads the team?").data
    ∧ ("Who leads the team?" : String).data
      <:+ (org_final_prompt ["graph TD; A-->B\n"] "Who leads the team?").data :=
  org_prompt_contains "Who leads the team?" "graph TD; A-->B\n" (by decide) (by decide)

/-- Claim C7: a message whose content is empty after stripping is never
rendered by `show_chat_history`, whatever its role (deleting it does not
change the rendering), and hence every rendered entry has non-empty
(already-stripped) text. -/
theorem rendered_nonempty :
    (∀ (h : List ChatMessage) (r : RenderedMsg),
      r ∈ (show_chat_render h).1 → r.text ≠ "")
    ∧ ∀ (h₁ h₂ : List ChatMessage) (m : ChatMessage),
        py_strip m.content = "" →
        show_chat_render (h₁ ++ m :: h₂) = show_chat_render (h₁ ++ h₂) := by
  constructor
  · intro h
    induction h with
    | nil => intro r hr; simp [show_chat_render] at hr
    | cons m rest ih =>
      intro r hr
      simp only [show_chat_render] at hr
      by_cases hc : py_strip m.content = ""
      · rw [if_pos hc] at hr
        exact ih r hr
      · rw [if_neg hc] at hr
        cases hav : get_avatar m.role with
        | error e => rw [hav] at hr; simp at hr
        | ok av =>
          rw [hav] at hr
          simp at hr
          cases hr with
          | inl he => subst he; exact hc
          | inr hm => exact ih r hm
  · intro h₁
    induction h₁ with
    | nil =>
      intro h₂ m hm
      simp only [List.nil_append]
      simp [show_chat_render, hm]
    | cons a h₁ ih =>
      intro h₂ m hm
      simp only [List.cons_append]
      simp only [show_chat_render]
      rw [ih h₂ m hm]

theorem rendered_nonempty_witness :
    (("hi" : String) ≠ "")
    ∧ show_chat_render ([] ++ (⟨"x", " "⟩ : ChatMessage) :: [])
      = show_chat_render ([] ++ ([] : List ChatMessage)) :=
  ⟨rendered_nonempty.1 [⟨"user", " hi "⟩] ⟨"user", "👩‍💼", "hi"⟩ (by decide),
   rendered_nonempty.2 [] [] ⟨"x", " "⟩ (by decide)⟩

/-- Claim C9 (counterexample): an existing directory with a subdirectory
entry named `notes.md` makes `load_documents` raise `IsADirectoryError`
(`open` on a directory), whereas the claim's mapping (`load_category_claim`,
exactly the regular `.md` files) would be empty. -/
theorem load_category_cex :
    load_category (some [("notes.md", DirEntry.subdir)])
      = Except.error "IsADirectoryError"
    ∧ load_category_claim (some [("notes.md", DirEntry.subdir)]) = [] :=
  ⟨rfl, rfl⟩

/-- Claim C9 (amended): a non-existent directory contributes an empty mapping
rather than an error, and when every entry named `*.md` is a regular file,
the load succeeds and returns exactly the `.md`-named files, keyed by
filename, with their full content, in listing order, with no recursion into
subdirectories. -/
theorem load_category_spec :
    (∀ entries : List (String × DirEntry),
      (∀ p ∈ entries, endsWithMd p.1 = true → p.2 ≠ DirEntry.subdir) →
      load_category (some entries)
        = Except.ok (load_category_claim (some entries)))
    ∧ load_category none = Except.ok [] := by
  refine ⟨?_, rfl⟩
  intro entries
  induction entries with
  | nil => intro _; rfl
  | cons p rest ih =>
    intro hgood
    obtain ⟨name, ent⟩ := p
    have hr : load_entries rest = Except.ok (load_category_claim (some rest)) :=
      ih (fun q hq hmd => hgood q (List.mem_cons_of_mem _ hq) hmd)
    by_cases hmd : endsWithMd name = true
    · cases ent with
      | subdir =>
        exact absurd rfl (hgood (name, DirEntry.subdir) (List.mem_cons_self _ _) hmd)
      | file c =>
        show load_entries ((name, DirEntry.file c) :: rest) = _
        simp [load_entries, hmd, hr, load_category_claim, List.filterMap_cons]
    · have hmdf : endsWithMd name = false := Bool.eq_false_iff.mpr hmd
      cases ent with
      | subdir =>
        show load_entries ((name, DirEntry.subdir) :: rest) = _
        simp [load_entries, hmdf, hr, load_category_claim, List.filterMap_cons]
      | file c =>
        show load_entries ((name, DirEntry.file c) :: rest) = _
        simp [load_entries, hmdf, hr, load_category_claim, List.filterMap_cons]

theorem load_category_spec_witness :
    load_category (some [("a.md", DirEntry.file "A"), ("b.txt", DirEntry.file "B")])
      = Except.ok (load_category_claim
          (some [("a.md", DirEntry.file "A"), ("b.txt", DirEntry.file "B")])) :=
  load_category_spec.1 _ (by decide)

/-- Claim C10: when none of the last 3 messages has an agent role, the
filtered list is empty, the universal check is vacuously true, so
`should_stop` returns true and `generate_response` appends the synthetic
sentinel even though no agent response matched any phrase. -/
theorem should_stop_vacuous (h : List ChatMessage)
    (hroles : ∀ m ∈ lastN 3 h, agent_roles.contains m.role = false) :
    should_stop h = true ∧ append_stall graph_sentinel h = h ++ [graph_sentinel] := by
  have hnil : (lastN 3 h).filterMap (fun m =>
      if agent_roles.contains m.role then
        some (py_lower (py_strip m.content))
      else none) = [] := by
    rw [List.filterMap_eq_nil_iff]
    intro m hm
    rw [if_neg (by simpa using hroles m hm)]
  have hstop : should_stop h = true := by
    simp only [should_stop]
    rw [hnil]
    rfl
  exact ⟨hstop, by simp [append_stall, hstop]⟩

theorem should_stop_vacuous_witness :
    should_stop [⟨"user", "hello"⟩] = true
    ∧ append_stall graph_sentinel [⟨"user", "hello"⟩]
      = [⟨"user", "hello"⟩] ++ [graph_sentinel] :=
  should_stop_vacuous [⟨"user", "hello"⟩] (by decide)
